import Mathlib

/-
Verification of the equitable-coloring implementation
(src/equitable_coloring/core.py) against its specification.

Shallow embedding notes:
- Nodes are dense integers 0..n-1 (the code relabels arbitrary node ids to
  dense integers at the start of equitable_color; our `Graph` starts there).
- A graph is its node count together with its edge list; `nbrs` reproduces
  networkx adjacency (each edge read from both endpoints, in edge order).
- Python dicts used as tables become total functions on Nat (resp. Nat x Nat),
  updated pointwise; Python ints become Int where decrements occur.
- Fallible Python code (raised exceptions) is modelled with `Except PyErr` or
  with explicit error-carrying result types.
-/

/-- A graph in the state the code puts it after the relabelling at the top of
`equitable_color`: nodes are exactly `0, ..., n - 1`, edges a list of pairs. -/
structure Graph where
  n : Nat
  edges : List (Nat × Nat)
deriving DecidableEq

/-- Neighbors of `u`: every edge is readable from both of its endpoints, as in
a networkx adjacency (`G.neighbors(u)`). -/
def nbrs (g : Graph) (u : Nat) : List Nat :=
  g.edges.filterMap (fun e =>
    if e.1 = u then some e.2 else if e.2 = u then some e.1 else none)

/-- Node degree, `G.degree(node)`. -/
def degree (g : Graph) (u : Nat) : Nat := (nbrs g u).length

/-- Line 109: `max([G.degree(node) for node in G.nodes], default=0)`. -/
def maxDegree (g : Graph) : Nat :=
  ((List.range g.n).map (degree g)).foldl max 0

/-- The exceptions the Python code can raise on the paths we model:
- `degreeTooHigh`: the NetworkXAlgorithmError of line 112, whose message
  carries the observed maximum degree and the supplied number of colors
  (the format string is `'Graph has maximum degree {}, needs {} (> {}) colors
  for guaranteed coloring.'` applied to `r_`, `r_ + 1`, `num_colors`);
- `typeErrorUnpack`: the TypeError of line 143 (`for node, color in F:`
  iterates the keys of dict `F`, which are ints and cannot be unpacked);
- `valueErrorUnpack`: the ValueError of line 31 (`a, b = list(all_set_sizes)`
  when the set does not have exactly two elements);
- `nameErrorG`: the NameError of line 44 (`G` is a free name in
  `change_color`; the module defines no global `G`). -/
inductive PyErr where
  | degreeTooHigh (maxDeg suppliedColors : Nat)
  | typeErrorUnpack
  | valueErrorUnpack
  | nameErrorG
deriving DecidableEq

/-- A Python dict with Nat keys and Nat values: its key list (in insertion
order) and a total lookup function.  Models the `coloring` argument of
`is_coloring` / `is_equitable`; `keys.map val` is `coloring.values()`. -/
structure PyDict where
  keys : List Nat
  val : Nat → Nat

/-- Lines 6-12: `is_coloring(G, coloring)` returns False as soon as an edge
has equal endpoint colors, True after scanning all edges. -/
def is_coloring (g : Graph) (col : PyDict) : Bool :=
  g.edges.all (fun e => ! (col.val e.1 == col.val e.2))

/-- Lines 22-24: `color_set_size[color] += 1` over `coloring.values()`, then
`color_set_size.values()`: the list of per-color class sizes, one entry per
distinct color occurring among the dict's values.  (Python's dict keeps
first-insertion order, `List.dedup` keeps last occurrences; only the multiset
of sizes is ever used, so the order difference is immaterial.) -/
def classSizes (col : PyDict) : List Nat :=
  let vals := col.keys.map col.val
  vals.dedup.map (fun c => vals.count c)

/-- Lines 15-32: `is_equitable`.  After the properness check it builds
`all_set_sizes = set(color_set_size.values())`, returns False when it has more
than 2 elements, and otherwise executes `a, b = list(all_set_sizes)` — which
raises ValueError unless the set has exactly two elements — and returns
`abs(a - b) <= 1`. -/
def is_equitable (g : Graph) (col : PyDict) : Except PyErr Bool :=
  if is_coloring g col then
    let all_set_sizes := (classSizes col).dedup
    if 2 < all_set_sizes.length then Except.ok false
    else
      match all_set_sizes with
      | [a, b] => Except.ok (decide (((a : Int) - (b : Int)).natAbs ≤ 1))
      | _ => Except.error PyErr.valueErrorUnpack
  else Except.ok false

/-- Edges of `nx.complete_graph(p)` relabelled by `idx + base`
(lines 128-129): all pairs `(base + i, base + j)` with `i < j < p`. -/
def cliqueEdges (base p : Nat) : List (Nat × Nat) :=
  (List.range p).flatMap (fun i =>
    ((List.range p).filter (fun j => decide (i < j))).map
      (fun j => (base + i, base + j)))

/-- `G.add_edges_from(es)` (line 130): the edges are appended, and the node
set grows by exactly the endpoints of the added edges (networkx adds a node
only when it occurs in an added edge).  Endpoints are dense integers at least
`g.n` here, so the new node count is the max of `g.n` and endpoint + 1. -/
def addEdgesFrom (g : Graph) (es : List (Nat × Nat)) : Graph :=
  { n := es.foldl (fun m e => max m (max (e.1 + 1) (e.2 + 1))) g.n,
    edges := g.edges ++ es }

/-- Lines 119-130: the padding step.  `r = num_colors - 1`,
`s = n_ // (r + 1)`; when `n_` is not a multiple of `r + 1` the code builds
`K = complete_graph(p)` on the imaginary nodes `n_, ..., n_ + p - 1` and adds
its edges (only its edges!) to `G`. -/
def padGraph (g : Graph) (numColors : Nat) : Graph :=
  let r := numColors - 1
  let n_ := g.n
  let s := n_ / (r + 1)
  if n_ = s * (r + 1) then g
  else
    let p := (r + 1) - n_ % (r + 1)
    addEdgesFrom g (cliqueEdges n_ p)

/-- Lines 61-205: `equitable_color`, up to the first statement that raises.
After the (pure) relabelling, the degree check of line 111 raises
`degreeTooHigh` when `r_ >= num_colors`.  Otherwise the graph is padded and
`F = {node: idx % num_colors ...}` is built (line 140); then line 143
(`for node, color in F:`) iterates the keys of `F` — ints — and unpacking an
int raises TypeError as soon as `F` has any key, i.e. whenever the padded
graph has at least one node.  With no nodes at all the loops are empty and the
function falls off its end: Python returns None, modelled as `Except.ok ()`.
In particular no execution ever returns a coloring; everything from line 147
on is unreachable and is modelled separately below as fragments. -/
def equitable_color (g : Graph) (numColors : Nat) : Except PyErr Unit :=
  let r_ := maxDegree g
  if numColors ≤ r_ then Except.error (PyErr.degreeTooHigh r_ numColors)
  else
    let gp := padGraph g numColors
    if gp.n = 0 then Except.ok () else Except.error PyErr.typeErrorUnpack

/-- The four shared tables F, N, H, C of the algorithm (the dicts built at
lines 140-150), as total functions. -/
structure Tables where
  N : Nat × Nat → Int
  H : Nat × Nat → Int
  F : Nat → Nat
  C : Nat → List Nat

/-- Pointwise increment of a `Nat × Nat`-indexed table by `d` at `p`. -/
def addN (f : Nat × Nat → Int) (p : Nat × Nat) (d : Int) : Nat × Nat → Int :=
  fun q => if q = p then f q + d else f q

/-- Pointwise update of a `Nat`-indexed table. -/
def updF (f : Nat → Nat) (u v : Nat) : Nat → Nat :=
  fun x => if x = u then v else f x

/-- Lines 35-58: `change_color(u, X, Y, N, H, F, C)`.  Lines 38-42 execute:
`F[u] = Y`, `H[(X, Y)] -= 1`, `H[(Y, X)] += 1`.  Then line 44
(`for v in G.neighbors(u):`) reads the free name `G`, which has no binding at
module scope (the `G` of `equitable_color` is a local), so every call raises
NameError there, before any update of N or C.  The model returns the raised
error together with the tables as they stand at the raise point. -/
def change_color (u X Y : Nat) (t : Tables) : PyErr × Tables :=
  let t1 : Tables :=
    { t with
      F := updF t.F u Y,
      H := addN (addN t.H (X, Y) (-1)) (Y, X) 1 }
  (PyErr.nameErrorG, t1)

/-- Outcome of the main loop of lines 153-204: either it runs to completion,
or it raises IndexError at line 167 (empty list comprehension), or it raises
the NameError of `change_color` at line 169 while recoloring node `u` from
`X` to `Y`. -/
inductive RunResult where
  | ok (t : Tables)
  | errIndex (u : Nat) (t : Tables)
  | errName (u X Y : Nat) (t : Tables)

/-- True exactly on the IndexError outcome. -/
def hasIndexError : RunResult → Bool
  | RunResult.errIndex _ _ => true
  | _ => false

/-- True exactly on the completed outcome. -/
def isOk : RunResult → Bool
  | RunResult.ok _ => true
  | _ => false

/-- The tables carried by any outcome. -/
def RunResult.tables : RunResult → Tables
  | RunResult.ok t => t
  | RunResult.errIndex _ t => t
  | RunResult.errName _ _ _ t => t

/-- Lines 155-163, body of `for v in G.neighbors(u)`: increment
`N[(u, F[v])]` and `N[(v, F[u])]`; when `F[u] != F[v]`, decrement
`H[(F[v], F[u])]` and `H[(F[u], F[v])]`.  (The `L_[u].append(v)` bookkeeping
is built but never read afterwards and is omitted.) -/
def stepNbr (u : Nat) (t : Tables) (v : Nat) : Tables :=
  let Fu := t.F u
  let Fv := t.F v
  { t with
    N := addN (addN t.N (u, Fv) 1) (v, Fu) 1,
    H := if Fu = Fv then t.H
         else addN (addN t.H (Fv, Fu) (-1)) (Fu, Fv) (-1) }

/-- Line 167's list comprehension: `[k for k in colors if N[(u, k)] == 0]`
with `colors = list(range(num_colors))`. -/
def zeroColors (k : Nat) (t : Tables) (u : Nat) : List Nat :=
  (List.range k).filter (fun c => t.N (u, c) == 0)

/-- One iteration of the loop of lines 153-169 for node `u`: fold the
neighbor updates, then, when `N[(u, F[u])] != 0`, pick the first conflict-free
color (IndexError if the comprehension is empty) and call `change_color`,
which raises NameError.  (The Procedure-P code of lines 171-204 sits after the
`change_color` call and is therefore never reached; it is modelled separately
as the BFS fragment below.) -/
def processNode (g : Graph) (k : Nat) (u : Nat) (t : Tables) :
    Tables ⊕ RunResult :=
  let t1 := (nbrs g u).foldl (stepNbr u) t
  if t1.N (u, t1.F u) == 0 then Sum.inl t1
  else
    match zeroColors k t1 u with
    | [] => Sum.inr (RunResult.errIndex u t1)
    | Y :: _ =>
      let X := t1.F u
      Sum.inr (RunResult.errName u X Y (change_color u X Y t1).2)

/-- The loop `for u in G.nodes:` of line 153 over a list of nodes. -/
def driver (g : Graph) (k : Nat) : List Nat → Tables → RunResult
  | [], t => RunResult.ok t
  | u :: rest, t =>
    match processNode g k u t with
    | Sum.inl t1 => driver g k rest t1
    | Sum.inr r => r

/-- The tables as lines 140-150 build them: `N` all zero, `H` uniformly `s`,
`F` given, `C` as the crashed line-143 loop left it (empty). -/
def startTables (s : Int) (F0 : Nat → Nat) : Tables :=
  { N := fun _ => 0, H := fun _ => s, F := F0, C := fun _ => [] }

/-- Line 140's initial coloring: `F = {node: idx % num_colors ...}`; after the
relabelling, node ids coincide with enumeration indices. -/
def line140F (k : Nat) : Nat → Nat := fun u => u % k

/-- The main loop of lines 153-169 run on the padded graph `g` from the
freshly built tables. -/
def runLoop (g : Graph) (k : Nat) (s : Int) (F0 : Nat → Nat) : RunResult :=
  driver g k (List.range g.n) (startTables s F0)

/-- Every nonzero entry `N[(x, c)]` points at a color held by some neighbor
of `x` — the invariant the driver-loop safety proof (C9) rests on.  It holds
for the all-zero initial `N` and is preserved by every neighbor update, since
those only touch `N` at `(u, F[v])` and `(v, F[u])` for adjacent `u`, `v`. -/
def NbrColorInv (g : Graph) (t : Tables) : Prop :=
  ∀ x c, t.N (x, c) ≠ 0 → ∃ v, v ∈ nbrs g x ∧ t.F v = c

/-- Modelled from the spec: the exact number of neighbors of `u` whose
current color under `F` is `c` (the value §3 of the spec requires `N[(u,c)]`
to hold). -/
def specNcount (g : Graph) (t : Tables) (u c : Nat) : Nat :=
  ((nbrs g u).filter (fun v => t.F v == c)).length

/-- Modelled from the spec: `|{u ∈ C[X] : N[(u, Y)] == 0}|`, the value §3 of
the spec requires `H[(X, Y)]` to hold, reading class membership off `F`. -/
def specHcount (g : Graph) (t : Tables) (X Y : Nat) : Nat :=
  ((List.range g.n).filter
    (fun u => t.F u == X && t.N (u, Y) == 0)).length

/-- State of the BFS of lines 176-195: the Python set `A_cal` (as a
duplicate-free list), the defaultdict `T_cal`, the lists `R_cal` and
`reachable`, and the loop index `idx`. -/
structure BfsState where
  A_cal : List Nat
  T_cal : Nat → List Nat
  R_cal : List Nat
  reachable : List Nat
  idx : Nat

/-- One iteration of the `while idx < len(reachable)` loop (lines 183-195).
Note `next_layer` is `[k for k in colors if H[(V_minus, k)] > 0]` — the
comprehension reads `H[(V_minus, k)]`, not `H[(pop, k)]`. -/
def bfsStep (k : Nat) (H : Nat × Nat → Int) (Vminus : Nat)
    (st : BfsState) : BfsState :=
  let pop := st.reachable.getD st.idx 0
  let A1 := if pop ∈ st.A_cal then st.A_cal else st.A_cal ++ [pop]
  let next_layer := (List.range k).filter (fun c => decide (0 < H (Vminus, c)))
  let T1 := next_layer.foldl
    (fun T dst => fun x => if x = dst then T x ++ [pop] else T x) st.T_cal
  { A_cal := A1,
    T_cal := T1,
    R_cal := st.R_cal ++ [pop],
    reachable := st.reachable ++ next_layer.filter (fun x => ! A1.contains x),
    idx := st.idx + 1 }

/-- The while loop, with explicit fuel.  The returned Bool is `true` exactly
when the loop condition is false on exit, i.e. when the fuel was enough for
the loop to terminate on its own (so the result is the loop's true result
independently of the fuel). -/
def bfsLoop (k : Nat) (H : Nat × Nat → Int) (Vminus : Nat) :
    Nat → BfsState → BfsState × Bool
  | 0, st => (st, decide (st.reachable.length ≤ st.idx))
  | fuel + 1, st =>
    if st.idx < st.reachable.length then
      bfsLoop k H Vminus fuel (bfsStep k H Vminus st)
    else (st, true)

/-- Lines 176-182: `A_cal = set()`, `T_cal = defaultdict(lambda: [])`,
`R_cal = []`, `reachable = [V_minus]`, `idx = 0`. -/
def bfsStart (Vminus : Nat) : BfsState :=
  { A_cal := [], T_cal := fun _ => [], R_cal := [], reachable := [Vminus],
    idx := 0 }

/-- The whole search phase of Procedure P (lines 176-195). -/
def bfsSearch (k : Nat) (H : Nat × Nat → Int) (Vminus fuel : Nat) :
    BfsState × Bool :=
  bfsLoop k H Vminus fuel (bfsStart Vminus)

/-- Modelled from the spec: one expansion step of the reachability of colors
from a set `S` through the relation `H[(c1, c2)] > 0`. -/
def specReachStep (k : Nat) (H : Nat × Nat → Int) (S : List Nat) : List Nat :=
  S ++ (List.range k).filter
    (fun c => ! S.contains c && S.any (fun a => decide (0 < H (a, c))))

/-- Iterated expansion. -/
def specReachAux (k : Nat) (H : Nat × Nat → Int) :
    Nat → List Nat → List Nat
  | 0, S => S
  | m + 1, S => specReachAux k H m (specReachStep k H S)

/-- Modelled from the spec: the set of colors reachable from `V` through the
relation `{(c1, c2) : H[(c1, c2)] > 0}` (k expansion steps saturate a
universe of k colors). -/
def specReachable (k : Nat) (H : Nat × Nat → Int) (V : Nat) : List Nat :=
  specReachAux k H k [V]

/- Concrete instances used in the theorems below. -/

/-- The path on two nodes: one edge 0-1. -/
def P2 : Graph := ⟨2, [(0, 1)]⟩

/-- The complete graph on three nodes. -/
def K3 : Graph := ⟨3, [(0, 1), (0, 2), (1, 2)]⟩

/-- Three isolated nodes. -/
def I3 : Graph := ⟨3, []⟩

/-- The main loop run on `P2` with `num_colors = 2` (so `s = 1`) and the
line-140 coloring `{0: 0, 1: 1}`. -/
def runP2 : RunResult := runLoop P2 2 1 (line140F 2)

/-- The proper coloring `{0: 0, 1: 1}` of `P2` (both classes of size 1). -/
def colEq : PyDict := ⟨[0, 1], fun u => u⟩

/-- Four nodes, one edge 0-1. -/
def G4 : Graph := ⟨4, [(0, 1)]⟩

/-- The proper coloring `{0: 0, 1: 1, 2: 0, 3: 1}` of `G4` (both classes of
size 2). -/
def colG4 : PyDict := ⟨[0, 1, 2, 3], fun u => u % 2⟩

/-- The path 0-1-2. -/
def GU : Graph := ⟨3, [(0, 1), (1, 2)]⟩

/-- The proper coloring `{0: 0, 1: 5, 2: 0}` of `GU`: only colors 0 and 5 are
used (sizes 2 and 1); colors 1, 2, 3, 4 of a five-color palette are unused. -/
def colU : PyDict := ⟨[0, 1, 2], fun u => if u = 1 then 5 else 0⟩

/-- The H table of the C8 counterexample: `H[(0,1)] = 1`, `H[(1,2)] = 1`,
everything else 0. -/
def Hc8 : Nat × Nat → Int :=
  fun p => if p = (0, 1) then 1 else if p = (1, 2) then 1 else 0

/-- The concrete tables used by C7's witness. -/
def T0 : Tables := startTables 1 (line140F 2)

/- Theorems settling the claims. -/

/-- C1 (refuted, code bug): `equitable_color` is claimed to return, for any
graph and any `num_colors` above the maximum degree, a proper equitable
coloring of the original nodes.  In fact on the valid input `P2` (one edge,
two colors) the code raises TypeError at line 143 (`for node, color in F:`
iterates int dict keys and unpacks them), and even on the empty graph — the
only input that survives line 143 — the function body has no return statement
and yields None, never a mapping. -/
theorem claim_C1 :
    equitable_color P2 2 = Except.error PyErr.typeErrorUnpack ∧
    equitable_color ⟨0, []⟩ 1 = Except.ok () :=
  ⟨rfl, rfl⟩

/-- C2 (confirmed): `equitable_color` raises the degree-too-high error
exactly when `num_colors ≤ maxDegree(G)`, and the raised error carries both
the observed maximum degree and the supplied palette size (no other execution
path produces this error). -/
theorem claim_C2 (g : Graph) (k : Nat) :
    (k ≤ maxDegree g →
      equitable_color g k =
        Except.error (PyErr.degreeTooHigh (maxDegree g) k)) ∧
    (maxDegree g < k →
      ∀ a b, equitable_color g k ≠ Except.error (PyErr.degreeTooHigh a b)) := by
  constructor
  · intro h
    simp [equitable_color, h]
  · intro h a b
    have h' : ¬ k ≤ maxDegree g := by omega
    simp only [equitable_color, if_neg h']
    split <;> simp

/-- Witness for C2 at a concrete input: `K3` has maximum degree 2, and with
`num_colors = 2` the code raises `degreeTooHigh 2 2`. -/
theorem claim_C2_witness :
    2 ≤ maxDegree K3 ∧
    equitable_color K3 2 = Except.error (PyErr.degreeTooHigh 2 2) :=
  ⟨by decide, (claim_C2 K3 2).1 (by decide)⟩

/-- C3 (refuted, code bug): `is_equitable` is claimed to return true when the
coloring is proper and all class sizes are equal.  On `P2` with the proper
coloring `{0: 0, 1: 1}` (both classes of size 1) the size set has a single
element and `a, b = list(all_set_sizes)` raises ValueError instead of
returning true. -/
theorem claim_C3 :
    is_coloring P2 colEq = true ∧
    classSizes colEq = [1, 1] ∧
    is_equitable P2 colEq = Except.error PyErr.valueErrorUnpack :=
  ⟨by decide, by decide, rfl⟩

/-- C4 (refuted, code bug): the padding is claimed to add exactly
`p = (r+1) - (n mod (r+1))` phantom nodes for every `p`, including `p = 1`.
With 3 isolated nodes and `num_colors = 2` we get `p = 1`, but
`G.add_edges_from(K.edges)` with `K = complete_graph(1)` adds no edge and
hence no node: the padded graph still has 3 nodes and 3 is not a multiple of
`r + 1 = 2`. -/
theorem claim_C4 :
    ((2 : Nat) - 3 % 2 = 1) ∧
    (padGraph I3 2).n = 3 ∧
    (padGraph I3 2).edges = [] ∧
    ¬ ((3 : Nat) % 2 = 0) := by
  decide

/-- C5 (refuted, code bug): `N[(u, c)]` is claimed to equal the exact number
of neighbors of `u` colored `c` once the tables are initialized, each edge
contributing once per endpoint.  Running the initialization loop on the
single-edge graph `P2` with 2 colors (it completes: no conflict arises), the
loop visits the edge from both endpoints and increments both directions each
time, so `N[(0, 1)]` ends at 2 although node 0 has exactly one neighbor
colored 1. -/
theorem claim_C5 :
    isOk runP2 = true ∧
    runP2.tables.N (0, 1) = 2 ∧
    specNcount P2 runP2.tables 0 1 = 1 := by
  decide

/-- C6 (refuted, code bug): `H[(X, Y)]` is claimed to equal
`|{u ∈ C[X] : N[(u, Y)] = 0}|` after initialization.  In the same completed
run as C5, `H[(0, 1)]` ends at `s - 2 = -1` (the single edge is processed
twice), while the true witness count is 0. -/
theorem claim_C6 :
    runP2.tables.H (0, 1) = -1 ∧
    specHcount P2 runP2.tables 0 1 = 0 := by
  decide

/-- C7 (refuted, code bug): `change_color` is claimed to complete the full
move (F, C and the N/H updates) without any unbound-variable failure.  In
fact every call raises NameError at `for v in G.neighbors(u)` (`G` is a free
name with no module-level binding), after having already set `F[u] = Y` and
shifted `H[(X, Y)]` down and `H[(Y, X)]` up, and before touching N or C. -/
theorem claim_C7 (u X Y : Nat) (t : Tables) (h : X ≠ Y) :
    (change_color u X Y t).1 = PyErr.nameErrorG ∧
    (change_color u X Y t).2.F u = Y ∧
    (change_color u X Y t).2.H (X, Y) = t.H (X, Y) - 1 ∧
    (change_color u X Y t).2.H (Y, X) = t.H (Y, X) + 1 ∧
    (change_color u X Y t).2.N = t.N ∧
    (change_color u X Y t).2.C = t.C := by
  have hne : ((X, Y) : Nat × Nat) ≠ (Y, X) := by
    intro hc
    exact h (congrArg Prod.fst hc)
  have hne' : ((Y, X) : Nat × Nat) ≠ (X, Y) := by
    intro hc
    exact h (congrArg Prod.snd hc)
  refine ⟨rfl, ?_, ?_, ?_, rfl, rfl⟩
  · simp [change_color, updF]
  · simp [change_color, addN, hne]
    omega
  · simp [change_color, addN, hne']

/-- Witness for C7 at a concrete call: `change_color(0, 0, 1, ...)` on the
freshly built tables raises NameError with the partial update applied. -/
theorem claim_C7_witness :
    (0 : Nat) ≠ 1 ∧
    ((change_color 0 0 1 T0).1 = PyErr.nameErrorG ∧
     (change_color 0 0 1 T0).2.F 0 = 1 ∧
     (change_color 0 0 1 T0).2.H (0, 1) = T0.H (0, 1) - 1 ∧
     (change_color 0 0 1 T0).2.H (1, 0) = T0.H (1, 0) + 1 ∧
     (change_color 0 0 1 T0).2.N = T0.N ∧
     (change_color 0 0 1 T0).2.C = T0.C) :=
  ⟨by decide, claim_C7 0 0 1 T0 (by decide)⟩

/-- C8 (refuted, code bug): the search is claimed to compute the set of
colors reachable from `V_minus` through `H[(c1, c2)] > 0`, expanding each
dequeued color by its own outgoing edges and recording first-discovery
predecessors, with the branch matching reachability of `V_plus`.  With
`H[(0, 1)] = H[(1, 2)] = 1` (all else 0), `num_colors = 3`, `V_minus = 0`,
`V_plus = 2`: the loop terminates with `A_cal = {0, 1}` because `next_layer`
always reads `H[(V_minus, k)]` instead of `H[(pop, k)]`; color 2 is reachable
(via 1) yet not in `A_cal`, so the rough branch would be taken; and
`T_cal[1] = [0, 1]` records every processed color, not a single
first-discovery predecessor. -/
theorem claim_C8 :
    (bfsSearch 3 Hc8 0 10).2 = true ∧
    (bfsSearch 3 Hc8 0 10).1.A_cal = [0, 1] ∧
    2 ∈ specReachable 3 Hc8 0 ∧
    ¬ 2 ∈ (bfsSearch 3 Hc8 0 10).1.A_cal ∧
    (bfsSearch 3 Hc8 0 10).1.T_cal 1 = [0, 1] := by
  decide

/-- C10 counterexample: the claim says a proper coloring whose used-color
class sizes satisfy the size condition is accepted.  The coloring
`{0: 0, 1: 1, 2: 0, 3: 1}` of `G4` is proper with both class sizes equal to 2
(one distinct value — equitable per the spec), yet `is_equitable` raises
ValueError rather than accepting it. -/
theorem claim_C10_counterexample :
    is_coloring G4 colG4 = true ∧
    classSizes colG4 = [2, 2] ∧
    is_equitable G4 colG4 = Except.error PyErr.valueErrorUnpack :=
  ⟨by decide, by decide, rfl⟩

/-- C10 (amended): `is_equitable` judges class sizes only over colors
actually assigned to at least one node — it takes no palette-size parameter
and no size-0 class can arise from unused palette colors (every computed
class size is positive); a proper coloring whose used-color class sizes take
exactly two distinct values is accepted iff they differ by at most 1,
regardless of any unused palette colors (witnessed by `colU`, which uses only
colors 0 and 5 of a five-color palette).  Colorings with all class sizes
equal are instead rejected by the ValueError of C3. -/
theorem claim_C10 :
    (∀ col : PyDict, ¬ 0 ∈ classSizes col) ∧
    (∀ (g : Graph) (col : PyDict) (a b : Nat),
      is_coloring g col = true → (classSizes col).dedup = [a, b] →
      is_equitable g col =
        Except.ok (decide (((a : Int) - (b : Int)).natAbs ≤ 1))) ∧
    is_equitable GU colU = Except.ok true := by
  refine ⟨?_, ?_, rfl⟩
  · intro col h
    simp only [classSizes] at h
    rcases List.mem_map.mp h with ⟨c, hc, hcount⟩
    have hcm : c ∈ col.keys.map col.val := List.mem_dedup.mp hc
    exact List.count_eq_zero.mp hcount hcm
  · intro g col a b h1 h2
    simp only [is_equitable, h1, if_true, h2]
    norm_num

/- Helper lemmas for the driver-loop safety proof (C9). -/

theorem mem_nbrs_symm {g : Graph} {u v : Nat} (h : v ∈ nbrs g u) :
    u ∈ nbrs g v := by
  simp only [nbrs, List.mem_filterMap] at h ⊢
  rcases h with ⟨⟨a, b⟩, he, hval⟩
  refine ⟨(a, b), he, ?_⟩
  simp only at hval ⊢
  split_ifs at hval ⊢ <;> simp_all

theorem init_le_foldl_max : ∀ (l : List Nat) (b : Nat), b ≤ l.foldl max b
  | [], _ => le_refl _
  | x :: xs, b => le_trans (le_max_left b x) (init_le_foldl_max xs (max b x))

theorem le_foldl_max : ∀ (l : List Nat) (b a : Nat), a ∈ l → a ≤ l.foldl max b := by
  intro l
  induction l with
  | nil => intro b a h; simp at h
  | cons x xs ih =>
    intro b a h
    rcases List.mem_cons.mp h with h1 | h2
    · subst h1
      exact le_trans (le_max_right b a) (init_le_foldl_max xs (max b a))
    · exact ih (max b x) a h2

theorem degree_le_maxDegree (g : Graph) (u : Nat) (h : u < g.n) :
    degree g u ≤ maxDegree g :=
  le_foldl_max _ 0 _ (List.mem_map.mpr ⟨u, List.mem_range.mpr h, rfl⟩)

theorem inv_stepNbr {g : Graph} {u v : Nat} {t : Tables} (hv : v ∈ nbrs g u)
    (hInv : NbrColorInv g t) : NbrColorInv g (stepNbr u t v) := by
  intro x c hN
  have hF : (stepNbr u t v).F = t.F := rfl
  rw [hF]
  by_cases h1 : ((x, c) : Nat × Nat) = (v, t.F u)
  · have hx : x = v := congrArg Prod.fst h1
    have hc : c = t.F u := congrArg Prod.snd h1
    subst hx; subst hc
    exact ⟨u, mem_nbrs_symm hv, rfl⟩
  · by_cases h2 : ((x, c) : Nat × Nat) = (u, t.F v)
    · have hx : x = u := congrArg Prod.fst h2
      have hc : c = t.F v := congrArg Prod.snd h2
      subst hx; subst hc
      exact ⟨v, hv, rfl⟩
    · apply hInv
      simp only [stepNbr, addN, if_neg h1, if_neg h2] at hN
      exact hN

theorem inv_foldl {g : Graph} {u : Nat} :
    ∀ (L : List Nat) (t : Tables), (∀ v ∈ L, v ∈ nbrs g u) →
      NbrColorInv g t →
      NbrColorInv g (L.foldl (stepNbr u) t) ∧
        (L.foldl (stepNbr u) t).F = t.F := by
  intro L
  induction L with
  | nil => intro t _ h; exact ⟨h, rfl⟩
  | cons v rest ih =>
    intro t hL hInv
    have hv : v ∈ nbrs g u := hL v (List.mem_cons_self v rest)
    have hrest : ∀ w ∈ rest, w ∈ nbrs g u :=
      fun w hw => hL w (List.mem_cons_of_mem v hw)
    have h := ih (stepNbr u t v) hrest (inv_stepNbr hv hInv)
    exact ⟨h.1, h.2.trans rfl⟩

theorem filter_range_head :
    ∀ (n : Nat) (p : Nat → Bool) (Y : Nat) (ys : List Nat),
      (List.range n).filter p = Y :: ys → ∀ c, c < Y → p c = false := by
  intro n
  induction n with
  | zero => intro p Y ys h; simp at h
  | succ m ih =>
    intro p Y ys h c hc
    rw [List.range_succ_eq_map, List.filter_cons] at h
    by_cases h0 : p 0 = true
    · rw [if_pos h0] at h
      have hY : Y = 0 := (List.cons.injEq _ _ _ _ ▸ h).1.symm
      omega
    · have h0' : p 0 = false := Bool.eq_false_iff.mpr h0
      rw [if_neg h0, List.filter_map] at h
      cases hf : (List.range m).filter (p ∘ Nat.succ) with
      | nil => rw [hf] at h; simp at h
      | cons Y' ys' =>
        rw [hf] at h
        simp only [List.map_cons, List.cons.injEq] at h
        cases c with
        | zero => exact h0'
        | succ c' =>
          have hc' : c' < Y' := by omega
          exact ih (p ∘ Nat.succ) Y' ys' hf c' hc'

theorem zeroColors_ne_nil {g : Graph} {k u : Nat} {t : Tables}
    (hInv : NbrColorInv g t) (hdeg : degree g u < k) :
    zeroColors k t u ≠ [] := by
  intro hnil
  have hall := List.filter_eq_nil_iff.mp hnil
  have hsub : Finset.range k ⊆ ((nbrs g u).map t.F).toFinset := by
    intro c hck
    have hc : c < k := Finset.mem_range.mp hck
    have hNc : t.N (u, c) ≠ 0 := by
      have h := hall c (List.mem_range.mpr hc)
      simpa using h
    rcases hInv u c hNc with ⟨v, hv, hFv⟩
    exact List.mem_toFinset.mpr (List.mem_map.mpr ⟨v, hv, hFv⟩)
  have hcard := Finset.card_le_card hsub
  rw [Finset.card_range] at hcard
  have h2 := List.toFinset_card_le ((nbrs g u).map t.F)
  rw [List.length_map] at h2
  have h3 : (nbrs g u).length < k := hdeg
  omega

theorem processNode_cases {g : Graph} (k : Nat) (u : Nat) (t : Tables)
    (hInv : NbrColorInv g t) (hdeg : degree g u < k) :
    (∃ t1, processNode g k u t = Sum.inl t1 ∧ NbrColorInv g t1) ∨
    (∃ X Y t2, processNode g k u t = Sum.inr (RunResult.errName u X Y t2) ∧
      Y < k ∧ t2.N (u, Y) = 0 ∧ ∀ c, c < Y → t2.N (u, c) ≠ 0) := by
  have hfold := inv_foldl (nbrs g u) t (fun v hv => hv) hInv
  by_cases hN :
      (((nbrs g u).foldl (stepNbr u) t).N
        (u, ((nbrs g u).foldl (stepNbr u) t).F u) == 0) = true
  · left
    refine ⟨(nbrs g u).foldl (stepNbr u) t, ?_, hfold.1⟩
    unfold processNode
    rw [if_pos hN]
  · right
    have hzs := zeroColors_ne_nil hfold.1 hdeg
    cases hz : zeroColors k ((nbrs g u).foldl (stepNbr u) t) u with
    | nil => exact absurd hz hzs
    | cons Y ys =>
      refine ⟨((nbrs g u).foldl (stepNbr u) t).F u, Y,
        (change_color u (((nbrs g u).foldl (stepNbr u) t).F u) Y
          ((nbrs g u).foldl (stepNbr u) t)).2, ?_, ?_, ?_, ?_⟩
      · unfold processNode
        rw [if_neg hN, hz]
      · have hYmem : Y ∈ zeroColors k ((nbrs g u).foldl (stepNbr u) t) u :=
          hz ▸ List.mem_cons_self Y ys
        have h := List.mem_filter.mp hYmem
        exact List.mem_range.mp h.1
      · have hYmem : Y ∈ zeroColors k ((nbrs g u).foldl (stepNbr u) t) u :=
          hz ▸ List.mem_cons_self Y ys
        have h := List.mem_filter.mp hYmem
        have h' : (((nbrs g u).foldl (stepNbr u) t).N (u, Y) == 0) = true := h.2
        simpa using h'
      · intro c hc
        have h := filter_range_head k _ Y ys hz c hc
        simpa using h

theorem driver_props {g : Graph} {k : Nat} :
    ∀ (L : List Nat) (t : Tables), NbrColorInv g t →
      (∀ u ∈ L, degree g u < k) →
      hasIndexError (driver g k L t) = false ∧
      (∀ u X Y t', driver g k L t = RunResult.errName u X Y t' →
        Y < k ∧ t'.N (u, Y) = 0 ∧ ∀ c, c < Y → t'.N (u, c) ≠ 0) := by
  intro L
  induction L with
  | nil =>
    intro t _ _
    refine ⟨rfl, ?_⟩
    intro u X Y t' h
    simp [driver] at h
  | cons u rest ih =>
    intro t hInv hdegs
    have hdu : degree g u < k := hdegs u (List.mem_cons_self u rest)
    have hrest : ∀ w ∈ rest, degree g w < k :=
      fun w hw => hdegs w (List.mem_cons_of_mem u hw)
    rcases processNode_cases k u t hInv hdu with
      ⟨t1, hp, hInv1⟩ | ⟨X, Y, t2, hp, hY, hN0, hmin⟩
    · have hd : driver g k (u :: rest) t = driver g k rest t1 := by
        simp [driver, hp]
      rw [hd]
      exact ih t1 hInv1 hrest
    · have hd : driver g k (u :: rest) t = RunResult.errName u X Y t2 := by
        simp [driver, hp]
      rw [hd]
      refine ⟨rfl, ?_⟩
      intro u' X' Y' t' h
      injection h with h1 h2 h3 h4
      subst h1; subst h2; subst h3; subst h4
      exact ⟨hY, hN0, hmin⟩

/-- C9 (confirmed on the driver-loop fragment): running the loop of lines
153-169 on any graph whose maximum degree is below `num_colors`, from the
tables the code builds (`N` all zero, `H` uniformly `s`, `F[u] = u mod k`),
line 167 never indexes an empty list — whenever a processed node `u` has
`N[(u, F[u])] != 0` some color with `N[(u, ·)] == 0` exists — and the color
`Y` passed to `change_color` is the smallest-indexed such color (the run
stops at the first recoloring because `change_color` raises NameError, so
`N` at that point is exactly the loop's table for `u`). -/
theorem claim_C9 (g : Graph) (k : Nat) (s : Int) (hdeg : maxDegree g < k) :
    hasIndexError (runLoop g k s (line140F k)) = false ∧
    (∀ u X Y t, runLoop g k s (line140F k) = RunResult.errName u X Y t →
      Y < k ∧ t.N (u, Y) = 0 ∧ ∀ c, c < Y → t.N (u, c) ≠ 0) := by
  have h0 : NbrColorInv g (startTables s (line140F k)) := by
    intro x c h
    exact absurd rfl h
  have hL : ∀ u ∈ List.range g.n, degree g u < k := by
    intro u hu
    exact lt_of_le_of_lt (degree_le_maxDegree g u (List.mem_range.mp hu)) hdeg
  exact driver_props (List.range g.n) _ h0 hL

/-- Witness for C9 at a concrete input: three nodes with the edge 0-2 and two
colors (maximum degree 1 < 2; node 0 starts in conflict with node 2, so the
loop does reach the selection of line 167) — no IndexError occurs. -/
theorem claim_C9_witness :
    maxDegree ⟨3, [(0, 2)]⟩ < 2 ∧
    hasIndexError (runLoop ⟨3, [(0, 2)]⟩ 2 1 (line140F 2)) = false :=
  ⟨by decide, (claim_C9 ⟨3, [(0, 2)]⟩ 2 1 (by decide)).1⟩

/-- Witness for C10 at a concrete input: `colU` is a proper coloring of `GU`
whose used-color class sizes deduplicate to `[1, 2]`, and `is_equitable`
accepts it. -/
theorem claim_C10_witness :
    is_coloring GU colU = true ∧
    (classSizes colU).dedup = [1, 2] ∧
    is_equitable GU colU =
      Except.ok (decide ((((1 : Nat) : Int) - ((2 : Nat) : Int)).natAbs ≤ 1)) :=
  ⟨by decide, by decide, claim_C10.2.1 GU colU 1 2 (by decide) (by decide)⟩
